import Mathlib

/-!
Verification development for the NASCAR rSLDS demonstration script
(examples/nascar.py).  The script wires external Bayesian inference
libraries together; its own logic is synthetic-data construction,
pickled caching, plotting layout, and the orchestration of fit calls in
the main block.  We shallowly embed that logic here:

* numeric arrays become functions out of Fin or lists over rationals
  and integers (exact arithmetic in place of floating point);
* the filesystem becomes a partial map from paths (lists of
  characters) to stored values, and pickling is modelled as storing the
  value itself;
* matplotlib calls become abstract drawing commands, so that the
  file-saving behaviour of each plotting helper is explicit;
* the main block becomes a list of steps recording, for each
  statement on the live code path, the callee, the variables it reads,
  the variables it binds, and the relevant keyword arguments.

External library internals (sklearn PCA, the Gibbs samplers, the
pyhsmm models) are black boxes to the script and are modelled by
opaque parameters or recorded call data only; everything the script
itself computes is translated from the source.
-/

open scoped Matrix

namespace NascarSpec

/-! ### Global parameters (nascar.py lines 46-53) -/

abbrev T : ℕ := 10000
abbrev K : ℕ := 4
abbrev K_true : ℕ := 4
abbrev D_obs : ℕ := 10
abbrev D_latent : ℕ := 2
abbrev mask_start : ℕ := 0
abbrev mask_stop : ℕ := 0
abbrev N_samples : ℕ := 1000

def CACHE_RESULTS : Bool := false

abbrev RUN_NUMBER : ℕ := 1

/-- Paths are lists of characters. -/
abbrev Path : Type := List Char

/-- os.path.join for a relative second component. -/
def os_path_join (d f : Path) : Path := d ++ '/' :: f

/-- RESULTS_DIR = os.path.join("results", "nascar", "run001") for
RUN_NUMBER = 1. -/
def RESULTS_DIR : Path :=
  ['r', 'e', 's', 'u', 'l', 't', 's', '/', 'n', 'a', 's', 'c', 'a', 'r',
   '/', 'r', 'u', 'n', '0', '0', '1']

/-- The ".pkl" extension appended by the caching wrapper. -/
def pkl_ext : Path := ['.', 'p', 'k', 'l']

/-- Python str.endswith on character lists: the last p.length characters
of l equal p. -/
def listEndsWith (l p : Path) : Prop := l.drop (l.length - p.length) = p

instance (l p : Path) : Decidable (listEndsWith l p) := by
  unfold listEndsWith; infer_instance

/-! ### The cached decorator (nascar.py lines 56-77)

The filesystem is a map from paths to pickled values; pickling a value
stores the value itself.  A Python function with filesystem effects is
modelled as a state-passing function on the filesystem. -/

/-- A filesystem storing pickled values of type β. -/
abbrev FSt (β : Type) : Type := Path → Option β

/-- The file path used by the caching wrapper: join RESULTS_DIR with
results_name and append ".pkl" when the joined path does not already
end with ".pkl" (nascar.py lines 60-62). -/
def results_file (results_name : Path) : Path :=
  let rf := os_path_join RESULTS_DIR results_name
  if listEndsWith rf pkl_ext then rf else rf ++ pkl_ext

/-- The cached(results_name) decorator (nascar.py lines 56-77).  When
cache_results is true the wrapped function first consults the cache
file: on a hit it returns the unpickled contents and leaves the
filesystem unchanged; on a miss it runs the function, writes the
pickled result to the cache file and returns the result.  When
cache_results is false the decorator is the identity. -/
def cached {α β : Type} (cache_results : Bool) (results_name : Path)
    (func : α → FSt β → β × FSt β) : α → FSt β → β × FSt β :=
  if cache_results then
    fun a fs =>
      match fs (results_file results_name) with
      | some results => (results, fs)
      | none =>
          let r := func a fs
          (r.1, fun p => if p = results_file results_name then some r.1 else r.2 p)
  else func

/-- The decorator argument of simulate_nascar (nascar.py line 435). -/
def simulated_data_name : Path :=
  ['s', 'i', 'm', 'u', 'l', 'a', 't', 'e', 'd', '_', 'd', 'a', 't', 'a']

/-- The decorated simulate_nascar: cached("simulated_data") applied to
the undecorated function body, which is abstract here (it samples from
external library models). -/
def simulate_nascar_decorated {α β : Type}
    (simulate_nascar_body : α → FSt β → β × FSt β) : α → FSt β → β × FSt β :=
  cached CACHE_RESULTS simulated_data_name simulate_nascar_body

/-- Example cache name used by the witness for the caching claim. -/
def witness_name : Path := ['a', 'b']

/-- Example filesystem holding 7 at the cache file for witness_name. -/
def witness_fs : FSt ℕ :=
  fun p => if p = results_file witness_name then some 7 else none

/-- Example wrapped function for the caching witness. -/
def witness_func : Unit → FSt ℕ → ℕ × FSt ℕ := fun _ fs => (3, fs)

/-! ### Plotting model

matplotlib calls become abstract drawing commands.  A plotting helper
returns the list of commands it issues together with auxiliary data
(warnings printed, files saved). -/

/-- Abstract drawing commands issued to a matplotlib axis. -/
inductive Draw : Type
  /-- A line segment of the trajectory or data plot: the colour index
  (the discrete state at the segment start) and the start and stop
  indices of the segment. -/
  | line (color : ℤ) (start stop : ℕ)
  /-- A quiver (vector field) plot in the given colour. -/
  | quiver (color : ℕ)
  /-- The fixed-point marker of plot_dynamics at the given point. -/
  | marker (c : Fin D_latent → ℚ)
  /-- An imshow image (index distinguishes successive images). -/
  | image (k : ℕ)
deriving DecidableEq

/-- Determinant of a 2x2 rational matrix, the exact-arithmetic stand-in
for the numerical singularity test of np.linalg.solve. -/
def det2 (M : Matrix (Fin D_latent) (Fin D_latent) ℚ) : ℚ :=
  M 0 0 * M 1 1 - M 0 1 * M 1 0

/-- np.linalg.solve on a 2x2 system: raises (Except.error) exactly on a
singular matrix, and otherwise returns the unique solution of
M x = b by Cramer's rule. -/
def np_linalg_solve (M : Matrix (Fin D_latent) (Fin D_latent) ℚ)
    (b : Fin D_latent → ℚ) : Except String (Fin D_latent → ℚ) :=
  if det2 M = 0 then Except.error "Singular matrix"
  else Except.ok
    ![(b 0 * M 1 1 - b 1 * M 0 1) / det2 M,
      (M 0 0 * b 1 - M 1 0 * b 0) / det2 M]

/-- plot_dynamics (nascar.py lines 171-203).  Draws the quiver of the
affine dynamics; when plot_center is true it attempts
center = -np.linalg.solve(A - I, b) inside a try block: on success the
centre marker is drawn, and on failure the exception is caught and the
warning "Dynamics are not invertible!" is printed.  The function always
returns its axis normally, so its result type is a plain pair of the
issued commands and the printed warnings. -/
def plot_dynamics (A : Matrix (Fin D_latent) (Fin D_latent) ℚ)
    (b : Fin D_latent → ℚ) (plot_center : Bool) (color : ℕ) :
    List Draw × List String :=
  let base := [Draw.quiver color]
  if plot_center then
    match np_linalg_solve (A - 1) b with
    | Except.ok s => (base ++ [Draw.marker (-s)], [])
    | Except.error _ => (base, ["Dynamics are not invertible!"])
  else (base, [])

/-! ### Changepoint segmentation (plot_trajectory and plot_data)

Both helpers build
zcps = np.concatenate(([0], np.where(np.diff(zhat))[0] + 1, [zhat.size]))
and draw one line per consecutive pair of entries of zcps.  A discrete
state array of size n is a function out of the naturals read on
indices below n. -/

/-- The changepoint array zcps: 0, then each index where the
difference of consecutive entries of zhat is nonzero shifted by one,
then the array size. -/
def zcps (n : ℕ) (zhat : ℕ → ℤ) : List ℕ :=
  0 :: (((List.range (n - 1)).filter
          (fun i => decide (zhat (i + 1) - zhat i ≠ 0))).map (fun i => i + 1)
        ++ [n])

/-- Consecutive pairs zip(l[:-1], l[1:]) of a list. -/
def segment_pairs (l : List ℕ) : List (ℕ × ℕ) := l.zip l.tail

/-- plot_trajectory (nascar.py lines 290-307): one line per changepoint
segment, coloured by the state at the segment start, plus an optional
savefig of the given filename. -/
def plot_trajectory (n : ℕ) (zhat : ℕ → ℤ) (x : ℕ → Fin D_latent → ℚ)
    (filename : Option Path) : List Draw × List Path :=
  ((segment_pairs (zcps n zhat)).map (fun p => Draw.line (zhat p.1) p.1 p.2),
   match filename with
   | none => []
   | some f => [f])

/-- plot_data (nascar.py lines 335-353): like plot_trajectory but for a
single observed dimension, with the stop index clamped to the data
length: stop = min(y.shape[0], stop + 1). -/
def plot_data (n : ℕ) (zhat : ℕ → ℤ) (y : ℕ → ℚ)
    (filename : Option Path) : List Draw × List Path :=
  ((segment_pairs (zcps n zhat)).map
      (fun p => Draw.line (zhat p.1) p.1 (min n (p.2 + 1))),
   match filename with
   | none => []
   | some f => [f])

/-- plot_trajectory_and_probs (nascar.py lines 309-332): optionally an
image of the transition probabilities, then plot_trajectory with its
filename left at the default None; its own filename, when given, is
saved under RESULTS_DIR. -/
def plot_trajectory_and_probs (n : ℕ) (zhat : ℕ → ℤ)
    (x : ℕ → Fin D_latent → ℚ) (has_trans : Bool)
    (filename : Option Path) : List Draw × List Path :=
  ((if has_trans then (List.range K).map Draw.image else [])
     ++ (plot_trajectory n zhat x none).1,
   match filename with
   | none => []
   | some f => [os_path_join RESULTS_DIR f])

/-- plot_z_samples (nascar.py lines 389-432): an image of the sample
matrix, optionally an image of the reference sequence, and an optional
savefig under RESULTS_DIR. -/
def plot_z_samples (zs : List (ℕ → ℤ)) (zref : Option (ℕ → ℤ))
    (filename : Option Path) : List Draw × List Path :=
  ([Draw.image 0] ++ (match zref with
                      | none => []
                      | some _ => [Draw.image 1]),
   match filename with
   | none => []
   | some f => [os_path_join RESULTS_DIR f])

/-- plot_all_dynamics (nascar.py lines 205-217): one plot_dynamics
panel per discrete state with plot_center false, and an optional
savefig under RESULTS_DIR. -/
def plot_all_dynamics
    (As : Fin K → Matrix (Fin D_latent) (Fin D_latent) ℚ)
    (bs : Fin K → Fin D_latent → ℚ) (filename : Option Path) :
    List Draw × List Path :=
  (((List.finRange K).map (fun k => (plot_dynamics (As k) (bs k) false k).1)).flatten,
   match filename with
   | none => []
   | some f => [os_path_join RESULTS_DIR f])

/-! ### simulate_nascar pieces (nascar.py lines 436-528)

The two rotation matrices are outputs of random_rotation (a random
orthogonal conjugation of a planar rotation); the construction of the
offsets from them and the mask slicing are the script's own logic and
are embedded here.  The matrices themselves are abstracted as
arbitrary 2x2 rational matrices. -/

/-- The designated centres of the two rotational systems
(nascar.py lines 451-452). -/
def nascar_centers : List (Fin D_latent → ℚ) := [![2, 0], ![-2, 0]]

/-- bs = [-(A - I).dot(center) for A, center in zip(As, centers)]
(nascar.py line 453). -/
def nascar_bs (As : List (Matrix (Fin D_latent) (Fin D_latent) ℚ)) :
    List (Fin D_latent → ℚ) :=
  List.zipWith (fun A c => -((A - 1) *ᵥ c)) As nascar_centers

/-- numpy row-slice assignment m[a:b] = v on a boolean (T, D_obs)
array. -/
def slice_assign_rows (m : Fin T → Fin D_obs → Bool) (a b : ℕ) (v : Bool) :
    Fin T → Fin D_obs → Bool :=
  fun i j => if a ≤ (i : ℕ) ∧ (i : ℕ) < b then v else m i j

/-- The mask built by simulate_nascar (nascar.py lines 520-521):
mask = np.ones((T, D_obs), dtype=bool); mask[mask_start:mask_stop] = False. -/
def nascar_mask : Fin T → Fin D_obs → Bool :=
  slice_assign_rows (fun _ _ => true) mask_start mask_stop false

/-- np.all(mask, axis=1): the row-wise conjunction. -/
def np_all_axis1 (m : Fin T → Fin D_obs → Bool) : Fin T → Bool :=
  fun i => (List.finRange D_obs).all (fun j => m i j)

/-- good_inds = np.all(mask, axis=1) in the main block
(nascar.py line 893). -/
def good_inds : Fin T → Bool := np_all_axis1 nascar_mask

/-- numpy masked row assignment x[bad] = 0 on a (T, D_latent) array,
used for x_init[~good_inds] = 0 (nascar.py line 900). -/
def zero_out_rows (x : Fin T → Fin D_latent → ℚ) (bad : Fin T → Bool) :
    Fin T → Fin D_latent → ℚ :=
  fun i j => if bad i then 0 else x i j

/-- numpy boolean row selection x[sel]: the list of selected row
indices, in order. -/
def select_rows (sel : Fin T → Bool) : List (Fin T) :=
  (List.finRange T).filter (fun i => sel i)

/-! ### fit_pca (nascar.py lines 549-563)

sklearn's PCA fit is an external black box; its outputs (the
transformed data, the component loadings, the data mean and the
per-component explained variances) are fields of an abstract model.
The script's own post-processing - taking the transpose, scaling the
loadings by the per-component standard deviations when whitening, and
column-stacking the mean - is translated from the source.  np.sqrt is
abstracted as a given function on rationals. -/

/-- The outputs of a fitted sklearn PCA model with D_latent
components on (T, D_obs) data. -/
structure PCAFit : Type where
  fit_transform : Matrix (Fin T) (Fin D_obs) ℚ → Matrix (Fin T) (Fin D_latent) ℚ
  components_ : Matrix (Fin D_latent) (Fin D_obs) ℚ
  mean_ : Fin D_obs → ℚ
  explained_variance_ : Fin D_latent → ℚ

/-- fit_pca: x_init = model.fit_transform(y); C_init = components_.T;
b_init = mean_; sigma = np.sqrt(explained_variance_); if whiten,
C_init = sigma * C_init (columnwise scaling); return
(x_init, np.column_stack((C_init, b_init))). -/
def fit_pca (np_sqrt : ℚ → ℚ) (model : PCAFit)
    (y : Matrix (Fin T) (Fin D_obs) ℚ) (whiten : Bool) :
    Matrix (Fin T) (Fin D_latent) ℚ × Matrix (Fin D_obs) (Fin (D_latent + 1)) ℚ :=
  let x_init := model.fit_transform y
  let C0 := model.components_.transpose
  let b_init := model.mean_
  let sigma : Fin D_latent → ℚ := fun j => np_sqrt (model.explained_variance_ j)
  let C_init : Matrix (Fin D_obs) (Fin D_latent) ℚ :=
    if whiten then fun i j => sigma j * C0 i j else C0
  (x_init, fun i j => if h : (j : ℕ) < D_latent then C_init i ⟨j, h⟩ else b_init i)

/-! ### The main block (nascar.py lines 876-956)

The live code path of the main block is a straight-line sequence of
statements.  Each statement is recorded as a step: the operation or
callee, the stage label for the pipeline stages named by the spec, the
variables read, the variables bound, and the N_iters / T / filename
keyword arguments where present.  Commented-out code is omitted, as it
does not run. -/

/-- The named pipeline stages, in spec order. -/
inductive Stage : Type
  | simulateNascar
  | fitPca
  | fitArhmm
  | fitDecisionList
  | fitSlds
  | fitRoslds
  | generate
  | makeFigure
deriving DecidableEq

/-- Position of a stage in the spec order. -/
def Stage.idx : Stage → ℕ
  | .simulateNascar => 0
  | .fitPca => 1
  | .fitArhmm => 2
  | .fitDecisionList => 3
  | .fitSlds => 4
  | .fitRoslds => 5
  | .generate => 6
  | .makeFigure => 7

/-- One statement of the main block: callee or operation, optional
stage label, variables read, variables bound, and the N_iters, T and
filename keyword arguments where the statement passes them. -/
structure Step : Type where
  fn : String
  stage : Option Stage
  uses : List String
  defs : List String
  nIters : Option ℕ
  tGen : Option ℕ
  filenameArg : Option String
deriving DecidableEq

/-- An empty step, used as the getD default. -/
def blank_step : Step := ⟨"", none, [], [], none, none, none⟩

/-- Module-level names visible to the main block before it runs. -/
def main_globals : List String :=
  ["T", "K", "K_true", "D_obs", "D_latent", "mask_start", "mask_stop",
   "N_samples"]

/-- The live statements of the main block (nascar.py lines 876-956), in
program order. -/
def mainSteps : List Step :=
  [⟨"simulate_nascar", some .simulateNascar, [],
    ["true_model", "inputs", "z_true", "x_true", "y", "mask"],
    none, none, none⟩,
   ⟨"fit_pca", some .fitPca, ["y"], ["x_init", "C_init"], none, none, none⟩,
   ⟨"np.all", none, ["mask"], ["good_inds"], none, none, none⟩,
   ⟨"getitem", none, ["x_init", "good_inds"], ["good_x_init"],
    none, none, none⟩,
   ⟨"fit_arhmm", some .fitArhmm, ["good_x_init"], ["arhmm", "good_z_init"],
    none, none, none⟩,
   ⟨"np.random.randint", none, ["K", "T"], ["z_init"], none, none, none⟩,
   ⟨"setitem", none, ["z_init", "good_inds", "good_z_init"], ["z_init"],
    none, none, none⟩,
   ⟨"setslice", none, ["z_init", "mask_start", "mask_stop"], ["z_init"],
    none, none, none⟩,
   ⟨"setitem", none, ["x_init", "good_inds"], ["x_init"], none, none, none⟩,
   ⟨"fit_decision_list", some .fitDecisionList, ["z_init", "x_init"],
    ["z_perm", "dl_reg"], none, none, none⟩,
   ⟨"fit_slds", some .fitSlds,
    ["inputs", "z_perm", "x_init", "y", "mask", "C_init", "N_samples"],
    ["slds", "slds_lps", "slds_z_smpls", "slds_x"],
    some N_samples, none, none⟩,
   ⟨"fit_roslds", some .fitRoslds,
    ["inputs", "z_perm", "x_init", "y", "mask", "dl_reg", "C_init",
     "N_samples"],
    ["roslds", "roslds_lps", "roslds_z_smpls", "roslds_x"],
    some N_samples, none, none⟩,
   ⟨"plot_trajectory_and_probs", none,
    ["roslds_z_smpls", "roslds_x", "roslds"], [], none, none, none⟩,
   ⟨"assign", none, [], ["T_gen"], none, none, none⟩,
   ⟨"np.ones", none, ["T_gen"], ["inputs"], none, none, none⟩,
   ⟨"roslds.generate", some .generate, ["roslds", "T_gen", "inputs"],
    ["roslds_y_gen", "roslds_x_gen", "roslds_z_gen"], none, some 2000, none⟩,
   ⟨"slds.generate", some .generate, ["slds", "T_gen", "inputs"],
    ["slds_y_gen", "slds_x_gen", "slds_z_gen"], none, some 2000, none⟩,
   ⟨"make_figure", some .makeFigure,
    ["true_model", "z_true", "x_true", "y",
     "roslds", "roslds_z_smpls", "roslds_x",
     "roslds_z_gen", "roslds_x_gen", "roslds_y_gen",
     "slds", "slds_z_smpls", "slds_x",
     "slds_z_gen", "slds_x_gen", "slds_y_gen"], [], none, none, none⟩,
   ⟨"plt.show", none, [], [], none, none, none⟩]

/-- Every step reads only names bound by earlier steps or module
globals. -/
def usesDefinedEarlier : List Step → List String → Bool
  | [], _ => true
  | s :: rest, env =>
      s.uses.all (fun u => env.contains u) &&
      usesDefinedEarlier rest (env ++ s.defs)

/-- The model class constructed by fit_slds (nascar.py line 657). -/
def fit_slds_model_class : String := "HMMSLDS"

/-- The model class constructed by fit_roslds (nascar.py line 790). -/
def fit_roslds_model_class : String := "PGRecurrentOnlySLDS"

/-- T_gen = 2000 set in the main block (nascar.py line 944). -/
def T_gen : ℕ := 2000

/-- Example discrete state array for the changepoint witness: two
zeros followed by a one. -/
def z_example : ℕ → ℤ := fun i => if i < 2 then 0 else 1

/-! ## Theorems -/

/-- Auxiliary: joining RESULTS_DIR in front of a relative file name
does not change whether the path ends with ".pkl". -/
theorem listEndsWith_os_path_join (nm : Path) :
    listEndsWith (os_path_join RESULTS_DIR nm) pkl_ext ↔ listEndsWith nm pkl_ext := by
  match nm with
  | [] => decide
  | [a] =>
      apply iff_of_false
      · intro h
        have h3 := show (['0', '1', '/', a] : List Char) = ['.', 'p', 'k', 'l'] from h
        injection h3 with h4 _
        exact absurd h4 (by decide)
      · intro h
        have h3 := show ([a] : List Char) = ['.', 'p', 'k', 'l'] from h
        have h4 := congrArg List.length h3
        simp at h4
  | [a, b] =>
      apply iff_of_false
      · intro h
        have h3 := show (['1', '/', a, b] : List Char) = ['.', 'p', 'k', 'l'] from h
        injection h3 with h4 _
        exact absurd h4 (by decide)
      · intro h
        have h3 := show ([a, b] : List Char) = ['.', 'p', 'k', 'l'] from h
        have h4 := congrArg List.length h3
        simp at h4
  | [a, b, c] =>
      apply iff_of_false
      · intro h
        have h3 := show (['/', a, b, c] : List Char) = ['.', 'p', 'k', 'l'] from h
        injection h3 with h4 _
        exact absurd h4 (by decide)
      · intro h
        have h3 := show ([a, b, c] : List Char) = ['.', 'p', 'k', 'l'] from h
        have h4 := congrArg List.length h3
        simp at h4
  | a :: b :: c :: d :: t =>
      unfold listEndsWith os_path_join
      rw [List.append_cons]
      have l1 : (RESULTS_DIR ++ ['/']).length = 22 := rfl
      have l2 : pkl_ext.length = 4 := rfl
      have l3 : (a :: b :: c :: d :: t : List Char).length = t.length + 4 := by
        simp [List.length_cons]
      have e2 : ((RESULTS_DIR ++ ['/']) ++ (a :: b :: c :: d :: t)).length - pkl_ext.length
          = (RESULTS_DIR ++ ['/']).length
            + ((a :: b :: c :: d :: t : List Char).length - pkl_ext.length) := by
        rw [List.length_append, l1, l2, l3]
        omega
      rw [e2, List.drop_append]

/-- Claim C3: with caching enabled, the wrapper forms its path under
RESULTS_DIR from results_name, appending ".pkl" exactly when
results_name does not already end with ".pkl"; on a cache hit it
returns the unpickled contents without running the wrapped function
and leaves the filesystem unchanged, and on a miss it runs the
function, pickles the result to the cache file, and returns it. -/
theorem claim_C3 {α β : Type} (results_name : Path)
    (func : α → FSt β → β × FSt β) (a : α) (fs : FSt β) :
    (results_file results_name
       = if listEndsWith results_name pkl_ext
         then os_path_join RESULTS_DIR results_name
         else os_path_join RESULTS_DIR results_name ++ pkl_ext) ∧
    (∀ v, fs (results_file results_name) = some v →
       cached true results_name func a fs = (v, fs)) ∧
    (fs (results_file results_name) = none →
       cached true results_name func a fs =
         ((func a fs).1,
          fun p => if p = results_file results_name then some (func a fs).1
                   else (func a fs).2 p)) := by
  refine ⟨?_, ?_, ?_⟩
  · unfold results_file
    by_cases h : listEndsWith results_name pkl_ext
    · rw [if_pos ((listEndsWith_os_path_join results_name).mpr h), if_pos h]
    · rw [if_neg (fun hc => h ((listEndsWith_os_path_join results_name).mp hc)),
        if_neg h]
  · intro v hv
    have e : cached true results_name func a fs
        = match fs (results_file results_name) with
          | some results => (results, fs)
          | none =>
              let r := func a fs
              (r.1, fun p => if p = results_file results_name then some r.1
                             else r.2 p) := rfl
    rw [e, hv]
  · intro hv
    have e : cached true results_name func a fs
        = match fs (results_file results_name) with
          | some results => (results, fs)
          | none =>
              let r := func a fs
              (r.1, fun p => if p = results_file results_name then some r.1
                             else r.2 p) := rfl
    rw [e, hv]

/-- Witness for claim C3 at a concrete name, filesystem, and wrapped
function: the cache file for name "ab" holds 7, and the wrapper
returns 7 without running the function (which would return 3). -/
theorem claim_C3_witness :
    witness_fs (results_file witness_name) = some 7 ∧
    cached true witness_name witness_func () witness_fs = (7, witness_fs) :=
  ⟨by decide, (claim_C3 witness_name witness_func () witness_fs).2.1 7 (by decide)⟩

/-- Claim C4: CACHE_RESULTS is false in this file, so
cached(results_name) is the identity on functions for every
results_name; in particular the decorated simulate_nascar is the very
same function as the undecorated body, with identical return value and
identical filesystem effects. -/
theorem claim_C4 {α β : Type} (results_name : Path)
    (func : α → FSt β → β × FSt β) :
    cached CACHE_RESULTS results_name func = func ∧
    simulate_nascar_decorated func = func ∧
    ∀ (a : α) (fs : FSt β), simulate_nascar_decorated func a fs = func a fs :=
  ⟨rfl, rfl, fun _ _ => rfl⟩

/-- Auxiliary: when np.linalg.solve succeeds, its result solves the
linear system. -/
theorem np_linalg_solve_spec (M : Matrix (Fin D_latent) (Fin D_latent) ℚ)
    (b : Fin D_latent → ℚ) (h : det2 M ≠ 0) (s : Fin D_latent → ℚ)
    (hs : np_linalg_solve M b = Except.ok s) : M *ᵥ s = b := by
  unfold np_linalg_solve at hs
  rw [if_neg h] at hs
  injection hs with hs
  subst hs
  simp only [det2] at h
  funext i
  fin_cases i <;>
    simp [Matrix.mulVec, Matrix.dotProduct, Fin.sum_univ_two, det2] <;>
    field_simp <;> ring

/-- Auxiliary: if s solves (A - I) s = b then -s is a fixed point of
the affine dynamics x maps to A x + b. -/
theorem fixed_point_of_solve (A : Matrix (Fin D_latent) (Fin D_latent) ℚ)
    (b s : Fin D_latent → ℚ) (hMs : (A - 1) *ᵥ s = b) :
    A *ᵥ (-s) + b = -s := by
  rw [← hMs, Matrix.sub_mulVec, Matrix.one_mulVec]
  simp only [Matrix.mulVec_neg]
  abel

/-- Claim C2: for every dynamics matrix A and offset b, plot_dynamics
with plot_center true attempts center = -solve(A - I, b) inside a
guarded block; when the solve raises (singular A - I) the exception is
caught, the warning "Dynamics are not invertible!" is printed and the
axis is still returned normally, and when it succeeds the plotted
centre is a fixed point of the affine dynamics.  In both cases the
function returns a plain value: no exception escapes. -/
theorem claim_C2 (A : Matrix (Fin D_latent) (Fin D_latent) ℚ)
    (b : Fin D_latent → ℚ) (color : ℕ) :
    (det2 (A - 1) = 0 →
       plot_dynamics A b true color
         = ([Draw.quiver color], ["Dynamics are not invertible!"])) ∧
    (det2 (A - 1) ≠ 0 →
       ∃ s, np_linalg_solve (A - 1) b = Except.ok s ∧
         plot_dynamics A b true color
           = ([Draw.quiver color, Draw.marker (-s)], []) ∧
         A *ᵥ (-s) + b = -s) ∧
    plot_dynamics A b false color = ([Draw.quiver color], []) := by
  refine ⟨?_, ?_, rfl⟩
  · intro h
    have e : np_linalg_solve (A - 1) b = Except.error "Singular matrix" := by
      unfold np_linalg_solve
      rw [if_pos h]
    simp [plot_dynamics, e]
  · intro h
    have e : np_linalg_solve (A - 1) b
        = Except.ok
            ![(b 0 * (A - 1) 1 1 - b 1 * (A - 1) 0 1) / det2 (A - 1),
              ((A - 1) 0 0 * b 1 - (A - 1) 1 0 * b 0) / det2 (A - 1)] := by
      unfold np_linalg_solve
      rw [if_neg h]
    refine ⟨_, e, ?_, ?_⟩
    · simp [plot_dynamics, e]
    · exact fixed_point_of_solve A b _ (np_linalg_solve_spec (A - 1) b h _ e)

/-- Witness for claim C2: at A = I the shifted matrix A - I is
singular, the warning is printed and the axis returned; at A = 0 the
solve succeeds and the plotted centre is a genuine fixed point. -/
theorem claim_C2_witness :
    det2 ((1 : Matrix (Fin D_latent) (Fin D_latent) ℚ) - 1) = 0 ∧
    plot_dynamics 1 0 true 0
      = ([Draw.quiver 0], ["Dynamics are not invertible!"]) ∧
    det2 ((0 : Matrix (Fin D_latent) (Fin D_latent) ℚ) - 1) ≠ 0 ∧
    (∃ s, np_linalg_solve ((0 : Matrix (Fin D_latent) (Fin D_latent) ℚ) - 1) ![1, 2]
            = Except.ok s ∧
       plot_dynamics 0 ![1, 2] true 3 = ([Draw.quiver 3, Draw.marker (-s)], []) ∧
       (0 : Matrix (Fin D_latent) (Fin D_latent) ℚ) *ᵥ (-s) + ![1, 2] = -s) := by
  have h1 : det2 ((1 : Matrix (Fin D_latent) (Fin D_latent) ℚ) - 1) = 0 := by
    norm_num [det2, Matrix.sub_apply, Matrix.one_apply]
  have h2 : det2 ((0 : Matrix (Fin D_latent) (Fin D_latent) ℚ) - 1) ≠ 0 := by
    norm_num [det2, Matrix.sub_apply, Matrix.one_apply, Matrix.zero_apply]
  exact ⟨h1, (claim_C2 1 0 0).1 h1, h2, (claim_C2 0 ![1, 2] 3).2.1 h2⟩

/-- Claim C7: none of the plotting helpers saves a file when its
filename argument is left at the default None, and every plotting call
on the live code path of the main block leaves the filename at None,
so the script only displays figures. -/
theorem claim_C7 :
    (∀ n zhat x, (plot_trajectory n zhat x none).2 = []) ∧
    (∀ n zhat y, (plot_data n zhat y none).2 = []) ∧
    (∀ n zhat x ht, (plot_trajectory_and_probs n zhat x ht none).2 = []) ∧
    (∀ zs zref, (plot_z_samples zs zref none).2 = []) ∧
    (∀ As bs, (plot_all_dynamics As bs none).2 = []) ∧
    mainSteps.all (fun s => s.filenameArg == none) = true :=
  ⟨fun _ _ _ => rfl, fun _ _ _ => rfl, fun _ _ _ _ => rfl,
   fun _ _ => rfl, fun _ _ => rfl, by decide⟩

/-- Claim C1: the main block runs its stages in the fixed order
simulate_nascar, fit_pca, fit_arhmm, fit_decision_list, fit_slds,
fit_roslds, the two generate calls, make_figure; the stage indices
along the trace never decrease, and every step of the main block reads
only names bound by earlier steps or module globals. -/
theorem claim_C1 :
    mainSteps.filterMap Step.stage
      = [Stage.simulateNascar, Stage.fitPca, Stage.fitArhmm,
         Stage.fitDecisionList, Stage.fitSlds, Stage.fitRoslds,
         Stage.generate, Stage.generate, Stage.makeFigure] ∧
    List.Pairwise (fun a b => Stage.idx a ≤ Stage.idx b)
      (mainSteps.filterMap Step.stage) ∧
    usesDefinedEarlier mainSteps main_globals = true :=
  ⟨by decide, by decide, by decide⟩

/-- Claim C5: fit_slds and fit_roslds are called on identical
observations, inputs, mask, permuted state sequence, continuous-state
initialization, and emission initialization, each with
N_iters = N_samples = 1000; fit_slds builds an HMMSLDS and fit_roslds
a PGRecurrentOnlySLDS; both fitted models then generate
T_gen = 2000 steps, and make_figure receives both fits and both
generated trajectories. -/
theorem claim_C5 :
    (mainSteps.getD 10 blank_step).fn = "fit_slds" ∧
    (mainSteps.getD 10 blank_step).uses
      = ["inputs", "z_perm", "x_init", "y", "mask", "C_init", "N_samples"] ∧
    (mainSteps.getD 10 blank_step).nIters = some N_samples ∧
    (mainSteps.getD 11 blank_step).fn = "fit_roslds" ∧
    (mainSteps.getD 11 blank_step).uses
      = ["inputs", "z_perm", "x_init", "y", "mask", "dl_reg", "C_init",
         "N_samples"] ∧
    (mainSteps.getD 11 blank_step).nIters = some N_samples ∧
    N_samples = 1000 ∧
    fit_slds_model_class = "HMMSLDS" ∧
    fit_roslds_model_class = "PGRecurrentOnlySLDS" ∧
    (mainSteps.getD 15 blank_step).fn = "roslds.generate" ∧
    (mainSteps.getD 15 blank_step).tGen = some T_gen ∧
    (mainSteps.getD 16 blank_step).fn = "slds.generate" ∧
    (mainSteps.getD 16 blank_step).tGen = some T_gen ∧
    T_gen = 2000 ∧
    (mainSteps.getD 17 blank_step).fn = "make_figure" ∧
    (["roslds", "slds", "roslds_z_gen", "roslds_x_gen", "roslds_y_gen",
      "slds_z_gen", "slds_x_gen", "slds_y_gen", "roslds_z_smpls", "roslds_x",
      "slds_z_smpls", "slds_x", "y"]).all
        (fun v => (mainSteps.getD 17 blank_step).uses.contains v) = true := by
  decide

/-- Claim C8: for any values of the two (random) rotation matrices,
simulate_nascar builds the offsets as b = -(A - I) c for the designated
centres (+2, 0) and (-2, 0), and each centre is an exact fixed point of
its affine dynamics: A c + b = c for both triples. -/
theorem claim_C8 (A0 A1 : Matrix (Fin D_latent) (Fin D_latent) ℚ) :
    nascar_bs [A0, A1]
      = [-((A0 - 1) *ᵥ ![2, 0]), -((A1 - 1) *ᵥ ![-2, 0])] ∧
    A0 *ᵥ ![2, 0] + (nascar_bs [A0, A1]).getD 0 0 = ![2, 0] ∧
    A1 *ᵥ ![-2, 0] + (nascar_bs [A0, A1]).getD 1 0 = ![-2, 0] := by
  refine ⟨rfl, ?_, ?_⟩
  · show A0 *ᵥ ![2, 0] + -((A0 - 1) *ᵥ ![2, 0]) = ![2, 0]
    rw [Matrix.sub_mulVec, Matrix.one_mulVec]
    abel
  · show A1 *ᵥ ![-2, 0] + -((A1 - 1) *ᵥ ![-2, 0]) = ![-2, 0]
    rw [Matrix.sub_mulVec, Matrix.one_mulVec]
    abel

/-- Claim C9: with mask_start = mask_stop = 0 the slice assignment
mask[0:0] = False assigns nothing, so the simulated mask is all True;
hence good_inds is all True, zeroing the rows of x_init outside
good_inds changes nothing, and the row selection passed to fit_arhmm
keeps all T rows. -/
theorem claim_C9 :
    (∀ i j, nascar_mask i j = true) ∧
    (∀ i, good_inds i = true) ∧
    (∀ x, zero_out_rows x (fun i => ! good_inds i) = x) ∧
    select_rows good_inds = List.finRange T ∧
    (select_rows good_inds).length = T := by
  have hmask : ∀ i j, nascar_mask i j = true := by
    intro i j
    unfold nascar_mask slice_assign_rows
    rw [if_neg]
    exact fun h => Nat.not_lt_zero _ h.2
  have hgood : ∀ i, good_inds i = true := by
    intro i
    unfold good_inds np_all_axis1
    rw [List.all_eq_true]
    intro j _
    exact hmask i j
  have hsel : select_rows good_inds = List.finRange T := by
    unfold select_rows
    exact List.filter_eq_self.mpr (fun a _ => hgood a)
  refine ⟨hmask, hgood, ?_, hsel, by rw [hsel]; exact List.length_finRange T⟩
  intro x
  funext i j
  unfold zero_out_rows
  simp [hgood i]

/-- Claim C6: fit_pca with whitening returns the transformed data
(of latent shape (T, D_latent) = (10000, 2), carried by the types) and
the (D_obs, D_latent + 1) = (10, 3) matrix whose first two columns are
the PCA component loadings scaled columnwise by the per-component
standard deviations sqrt(explained_variance_), and whose last column
is the data mean. -/
theorem claim_C6 (np_sqrt : ℚ → ℚ) (model : PCAFit)
    (y : Matrix (Fin T) (Fin D_obs) ℚ) :
    T = 10000 ∧ D_obs = 10 ∧ D_latent = 2 ∧
    (fit_pca np_sqrt model y true).1 = model.fit_transform y ∧
    ∀ i : Fin D_obs,
      (fit_pca np_sqrt model y true).2 i 0
        = np_sqrt (model.explained_variance_ 0) * model.components_ 0 i ∧
      (fit_pca np_sqrt model y true).2 i 1
        = np_sqrt (model.explained_variance_ 1) * model.components_ 1 i ∧
      (fit_pca np_sqrt model y true).2 i 2 = model.mean_ i :=
  ⟨rfl, rfl, rfl, rfl, fun _ => ⟨rfl, rfl, rfl⟩⟩

/-! ### Changepoint lemmas for claim C10 -/

/-- Membership in the changepoint array: 0, the size n, and exactly
the interior indices where the state changes. -/
theorem zcps_mem_iff (n : ℕ) (z : ℕ → ℤ) (hn : 0 < n) (m : ℕ) :
    m ∈ zcps n z ↔ m = 0 ∨ m = n ∨ (0 < m ∧ m < n ∧ z m ≠ z (m - 1)) := by
  unfold zcps
  simp only [List.mem_cons, List.mem_append, List.mem_map, List.mem_filter,
    List.mem_range, List.mem_singleton, List.not_mem_nil, or_false,
    decide_eq_true_eq]
  constructor
  · rintro (h0 | ⟨i, ⟨hi, hz⟩, rfl⟩ | hnn)
    · exact Or.inl h0
    · refine Or.inr (Or.inr ⟨Nat.succ_pos i, by omega, ?_⟩)
      simpa using sub_ne_zero.mp hz
    · exact Or.inr (Or.inl hnn)
  · rintro (h0 | hnn | ⟨hm0, hmn, hz⟩)
    · exact Or.inl h0
    · exact Or.inr (Or.inr hnn)
    · refine Or.inr (Or.inl ⟨m - 1, ⟨⟨by omega, ?_⟩, by omega⟩⟩)
      rw [Nat.sub_add_cancel hm0]
      exact sub_ne_zero.mpr hz

/-- The changepoint array is strictly increasing. -/
theorem zcps_pairwise (n : ℕ) (z : ℕ → ℤ) (hn : 0 < n) :
    (zcps n z).Pairwise (· < ·) := by
  unfold zcps
  refine List.pairwise_cons.mpr ⟨?_, ?_⟩
  · intro a ha
    rcases List.mem_append.mp ha with h | h
    · obtain ⟨i, _, rfl⟩ := List.mem_map.mp h
      omega
    · have ha' : a = n := by simpa using h
      omega
  · refine List.pairwise_append.mpr ⟨?_, by simp, ?_⟩
    · exact ((List.pairwise_lt_range _).filter _).map _
        (fun _ _ hab => Nat.add_lt_add_right hab 1)
    · intro a ha b hb
      obtain ⟨i, hi, rfl⟩ := List.mem_map.mp ha
      have hb' : b = n := by simpa using hb
      have hir := List.mem_range.mp (List.mem_filter.mp hi).1
      omega

/-- getD at the length of the left part of an append with a singleton. -/
theorem getD_append_singleton (L : List ℕ) (n : ℕ) :
    (L ++ [n]).getD L.length 0 = n := by
  induction L with
  | nil => rfl
  | cons a t ih =>
      rw [show ((a :: t).length : ℕ) = t.length + 1 from rfl]
      rw [List.cons_append, List.getD_cons_succ]
      exact ih

/-- The changepoint array has at least the two entries 0 and n. -/
theorem zcps_length (n : ℕ) (z : ℕ → ℤ) : 2 ≤ (zcps n z).length := by
  unfold zcps
  simp [List.length_append]

/-- The last entry of the changepoint array is the array size n. -/
theorem zcps_getD_last (n : ℕ) (z : ℕ → ℤ) :
    (zcps n z).getD ((zcps n z).length - 1) 0 = n := by
  unfold zcps
  rw [show (0 :: (((List.range (n - 1)).filter
        (fun i => decide (z (i + 1) - z i ≠ 0))).map (fun i => i + 1)
        ++ [n])).length - 1
      = (((List.range (n - 1)).filter
        (fun i => decide (z (i + 1) - z i ≠ 0))).map (fun i => i + 1)).length + 1
      from by simp]
  rw [List.getD_cons_succ]
  exact getD_append_singleton _ n

/-- getD is strictly monotone on a strictly increasing list. -/
theorem getD_lt_of_pairwise (l : List ℕ) (hp : l.Pairwise (· < ·))
    (i j : ℕ) (hij : i < j) (hj : j < l.length) : l.getD i 0 < l.getD j 0 := by
  have hi : i < l.length := lt_trans hij hj
  rw [List.getD_eq_get l 0 hi, List.getD_eq_get l 0 hj]
  exact List.pairwise_iff_get.mp hp ⟨i, hi⟩ ⟨j, hj⟩ hij

/-- getD is monotone on a strictly increasing list. -/
theorem getD_le_of_pairwise (l : List ℕ) (hp : l.Pairwise (· < ·))
    (i j : ℕ) (hij : i ≤ j) (hj : j < l.length) : l.getD i 0 ≤ l.getD j 0 := by
  rcases Nat.lt_or_ge i j with h | h
  · exact le_of_lt (getD_lt_of_pairwise l hp i j h hj)
  · have he : i = j := by omega
    rw [he]

/-- Existence of a bracketing consecutive pair in a nonempty list whose
first entry is at most t and whose last entry exceeds t. -/
theorem bracket_exists (l : List ℕ) :
    ∀ t : ℕ, l ≠ [] → l.getD 0 0 ≤ t → t < l.getD (l.length - 1) 0 →
      ∃ j, j + 1 < l.length ∧ l.getD j 0 ≤ t ∧ t < l.getD (j + 1) 0 := by
  induction l with
  | nil => intro t h; exact absurd rfl h
  | cons a l ih =>
      intro t _ h0 hlast
      cases l with
      | nil =>
          exfalso
          simp [List.getD] at h0 hlast
          omega
      | cons b l' =>
          by_cases hb : t < b
          · refine ⟨0, ?_, h0, ?_⟩
            · simp
            · simpa [List.getD_cons_succ] using hb
          · push_neg at hb
            have hlast' : t < (b :: l').getD ((b :: l').length - 1) 0 := by
              have e : (a :: b :: l').length - 1 = ((b :: l').length - 1) + 1 := by
                simp
              rw [e, List.getD_cons_succ] at hlast
              exact hlast
            obtain ⟨j, hj1, hj2, hj3⟩ := ih t (by simp) hb hlast'
            refine ⟨j + 1, ?_, ?_, ?_⟩
            · simpa using Nat.succ_lt_succ hj1
            · simpa [List.getD_cons_succ] using hj2
            · simpa [List.getD_cons_succ] using hj3

/-- Uniqueness of the bracketing consecutive pair in a strictly
increasing list. -/
theorem bracket_unique (l : List ℕ) (hp : l.Pairwise (· < ·)) (t : ℕ)
    (j j' : ℕ) (hj : j + 1 < l.length) (h1 : l.getD j 0 ≤ t)
    (h2 : t < l.getD (j + 1) 0) (hj' : j' + 1 < l.length)
    (h1' : l.getD j' 0 ≤ t) (h2' : t < l.getD (j' + 1) 0) : j = j' := by
  by_contra hne
  rcases Nat.lt_or_ge j j' with h | h
  · have hle := getD_le_of_pairwise l hp (j + 1) j' h (by omega)
    omega
  · have hlt : j' < j := by omega
    have hle := getD_le_of_pairwise l hp (j' + 1) j hlt (by omega)
    omega

/-- Every changepoint is at most the array size. -/
theorem zcps_le_n (n : ℕ) (z : ℕ → ℤ) (hn : 0 < n) (m : ℕ)
    (hm : m ∈ zcps n z) : m ≤ n := by
  rcases (zcps_mem_iff n z hn m).mp hm with h | h | h <;> omega

/-- No changepoint lies strictly between two consecutive entries of the
changepoint array. -/
theorem zcps_not_mem_between (n : ℕ) (z : ℕ → ℤ) (hn : 0 < n) (j : ℕ)
    (hj : j + 1 < (zcps n z).length) (m : ℕ)
    (h1 : (zcps n z).getD j 0 < m) (h2 : m < (zcps n z).getD (j + 1) 0) :
    m ∉ zcps n z := by
  intro hm
  obtain ⟨⟨i, hi⟩, hget⟩ := List.mem_iff_get.mp hm
  have hgd : (zcps n z).getD i 0 = m := by
    rw [List.getD_eq_get _ 0 hi]
    exact hget
  have hp := zcps_pairwise n z hn
  rcases Nat.lt_or_ge j i with h | h
  · have hle := getD_le_of_pairwise _ hp (j + 1) i h hi
    omega
  · have hle := getD_le_of_pairwise _ hp i j h (by omega)
    omega

/-- zhat is constant on each changepoint segment: every index of the
segment carries the state of the segment start, hence is drawn in the
colour of that state. -/
theorem zcps_const (n : ℕ) (z : ℕ → ℤ) (hn : 0 < n) (j : ℕ)
    (hj : j + 1 < (zcps n z).length) :
    ∀ t, (zcps n z).getD j 0 ≤ t → t < (zcps n z).getD (j + 1) 0 →
      z t = z ((zcps n z).getD j 0) := by
  have he_mem : (zcps n z).getD (j + 1) 0 ∈ zcps n z := by
    rw [List.getD_eq_get _ 0 hj]
    exact List.get_mem _ _ _
  have he_le : (zcps n z).getD (j + 1) 0 ≤ n := zcps_le_n n z hn _ he_mem
  intro t ht
  induction t, ht using Nat.le_induction with
  | base => intro _; rfl
  | succ t ht ih =>
      intro hlt
      have hnot : (t + 1) ∉ zcps n z :=
        zcps_not_mem_between n z hn j hj (t + 1) (by omega) hlt
      have hzz : z (t + 1) = z t := by
        by_contra hc
        apply hnot
        refine (zcps_mem_iff n z hn (t + 1)).mpr
          (Or.inr (Or.inr ⟨Nat.succ_pos t, by omega, ?_⟩))
        simpa using hc
      rw [hzz]
      exact ih (by omega)

/-- Claim C10: for a nonempty state array, the changepoint array is
strictly increasing; every time index below the size lies in exactly
one consecutive changepoint pair; the state is constant on each such
segment (so each index is drawn in the colour of the state at its
segment start); and the segments are maximal: the state at the right
endpoint of a non-final segment differs from the state on the
segment. -/
theorem claim_C10 (n : ℕ) (zhat : ℕ → ℤ) (hn : 0 < n) :
    (zcps n zhat).Pairwise (· < ·) ∧
    (∀ t, t < n → ∃! j, j + 1 < (zcps n zhat).length ∧
        (zcps n zhat).getD j 0 ≤ t ∧ t < (zcps n zhat).getD (j + 1) 0) ∧
    (∀ j, j + 1 < (zcps n zhat).length →
       ∀ t, (zcps n zhat).getD j 0 ≤ t → t < (zcps n zhat).getD (j + 1) 0 →
         zhat t = zhat ((zcps n zhat).getD j 0)) ∧
    (∀ j, j + 1 < (zcps n zhat).length → (zcps n zhat).getD (j + 1) 0 < n →
       zhat ((zcps n zhat).getD (j + 1) 0) ≠ zhat ((zcps n zhat).getD j 0)) := by
  have hp := zcps_pairwise n zhat hn
  refine ⟨hp, ?_, fun j hj => zcps_const n zhat hn j hj, ?_⟩
  · intro t ht
    have hne : zcps n zhat ≠ [] := by
      intro h
      have hl := zcps_length n zhat
      rw [h] at hl
      simp at hl
    have h0 : (zcps n zhat).getD 0 0 ≤ t := Nat.zero_le t
    have hlast : t < (zcps n zhat).getD ((zcps n zhat).length - 1) 0 := by
      rw [zcps_getD_last]
      exact ht
    obtain ⟨j, hj1, hj2, hj3⟩ := bracket_exists (zcps n zhat) t hne h0 hlast
    refine ⟨j, ⟨hj1, hj2, hj3⟩, ?_⟩
    rintro j' ⟨hj1', hj2', hj3'⟩
    exact bracket_unique (zcps n zhat) hp t j' j hj1' hj2' hj3' hj1 hj2 hj3
  · intro j hj hlt
    have hslt : (zcps n zhat).getD j 0 < (zcps n zhat).getD (j + 1) 0 :=
      getD_lt_of_pairwise _ hp j (j + 1) (Nat.lt_succ_self j) hj
    have hmem : (zcps n zhat).getD (j + 1) 0 ∈ zcps n zhat := by
      rw [List.getD_eq_get _ 0 hj]
      exact List.get_mem _ _ _
    rcases (zcps_mem_iff n zhat hn _).mp hmem with h0 | hnn | ⟨_, _, hne⟩
    · omega
    · omega
    · have hconst := zcps_const n zhat hn j hj
        ((zcps n zhat).getD (j + 1) 0 - 1) (by omega) (by omega)
      exact fun hc => hne (hc.trans hconst.symm)

/-- Witness for claim C10 on the concrete array (0, 0, 1): the
changepoint array evaluates to (0, 2, 3) and the claim applies with
the nonemptiness hypothesis discharged. -/
theorem claim_C10_witness :
    (0 : ℕ) < 3 ∧ zcps 3 z_example = [0, 2, 3] ∧
    (zcps 3 z_example).Pairwise (· < ·) :=
  ⟨by decide, by decide, (claim_C10 3 z_example (by decide)).1⟩

end NascarSpec
